import Mathlib

/-!
# Verification of the cs2-marketplace-microservices core

Shallow embedding of the user-service balance-transfer path, the
process-local user cache, and the transaction-statistics aggregation,
together with theorems settling the specification claims.

Conventions of the embedding:
* `float64` balances and amounts are idealised as exact rationals (`ℚ`);
  the source performs ordinary IEEE arithmetic through MongoDB `$inc`.
* MongoDB ObjectID strings are abstract `String` identifiers; hex-validity
  of identifiers is not modelled.
* Go errors are values with allocation identity: `errors.New` returns a
  fresh value each time, and `errors.Is(err, target)` (for errors with no
  `Unwrap` chain, as here) holds exactly when `err` is the very same
  allocation as `target`.  The inductive `GoErr` gives each allocation
  site its own constructor.
* Repository I/O faults (network / storage errors of a `$inc` call) are
  modelled by a fault schedule: the state counts `UpdateUserBalance`
  calls, and calls whose index is in `failAt` fail without mutating.
-/

namespace CS2

/-- A user record, mirroring `user-service/internal/models.User`
(`ID`, `Username`, `Email`, `Password`, `Balance`, `IsAdmin`); timestamps
are omitted as no claim mentions them.  `Balance` (Go `float64`) is
idealised as `ℚ`. -/
structure User where
  id : String
  username : String
  email : String
  password : String
  balance : ℚ
  isAdmin : Bool
deriving Repr, DecidableEq

/-- Go error values with allocation identity.  One constructor per
allocation site relevant to the embedded code:
* `sentinelInsufficientBalance` — the package-level
  `ErrInsufficientBalance = errors.New("insufficient balance")`
  (`usecase.go` line 29);
* `freshSenderNotFound`, `freshInsufficientBalance`,
  `freshRecipientNotFound` — the `errors.New(...)` calls inside
  `TransferBalance` (`usecase.go` lines 269/274/279); note
  `freshInsufficientBalance` is a *distinct allocation* from the
  sentinel even though the message strings coincide;
* `repoNotFound` — MongoDB `ErrNoDocuments` surfaced by `FindOne`;
* `freshEmailInUse`, `freshUsernameInUse` — the `errors.New(...)` calls
  inside the cached `UpdateUserProfile`;
* `freshInvalidToken`, `freshTokenExpired`, `freshUserNotFound` — the
  `errors.New(...)` calls inside the cached `ResetPassword`;
* `ioFault n` — an injected I/O failure of the n-th balance-update call. -/
inductive GoErr where
  | sentinelInsufficientBalance
  | freshSenderNotFound
  | freshInsufficientBalance
  | freshRecipientNotFound
  | repoNotFound
  | freshEmailInUse
  | freshUsernameInUse
  | freshInvalidToken
  | freshTokenExpired
  | freshUserNotFound
  | ioFault (n : Nat)
deriving Repr, DecidableEq

/-- `errors.Is(e, target)` for errors without an `Unwrap` chain:
true exactly when `e` and `target` are the same allocation. -/
def errorsIs (e target : GoErr) : Bool := e == target

/-- Persistent-store state: the `users` collection, plus the fault
schedule for balance updates (`callIdx` counts `UpdateUserBalance`
calls so far; calls whose index lies in `failAt` fail). -/
structure RepoState where
  users : List User
  callIdx : Nat := 0
  failAt : List Nat := []
deriving Repr, DecidableEq

/-- `FindOne` on the `users` collection keyed by `_id`. -/
def findUser (us : List User) (id : String) : Option User :=
  us.find? (fun u => u.id == id)

/-- `userRepository.GetUserByID`: `FindOne` by id, `ErrNoDocuments`
when absent (`shared/proto/inventory.proto` lines 232-245). -/
def GetUserByID (s : RepoState) (id : String) : Except GoErr User :=
  match findUser s.users id with
  | some u => .ok u
  | none => .error .repoNotFound

/-- The effect of MongoDB `UpdateOne({_id: id}, {$inc: {balance: δ}})`
on the collection: the matching document's balance is incremented;
when no document matches, nothing changes. -/
def incBalance (us : List User) (id : String) (δ : ℚ) : List User :=
  us.map (fun u => if u.id == id then { u with balance := u.balance + δ } else u)

/-- `userRepository.UpdateUserBalance` (`shared/proto/inventory.proto`
lines 287-298): an unconditional atomic `$inc` on `balance`.  MongoDB
returns no error when the id matches no document (the update is a
no-op), so absence of the user is *not* an error here.  An injected
I/O fault makes the call fail without mutating the collection. -/
def UpdateUserBalance (s : RepoState) (id : String) (amount : ℚ) :
    RepoState × Option GoErr :=
  if s.failAt.contains s.callIdx then
    ({ s with callIdx := s.callIdx + 1 }, some (.ioFault s.callIdx))
  else
    ({ s with users := incBalance s.users id amount, callIdx := s.callIdx + 1 }, none)

/-- `userRepository.GetUserByEmail`: `FindOne` keyed by `email`. -/
def findUserByEmail (us : List User) (email : String) : Option User :=
  us.find? (fun u => u.email == email)

/-- `userRepository.GetUserByUsername`: `FindOne` keyed by `username`. -/
def findUserByUsername (us : List User) (username : String) : Option User :=
  us.find? (fun u => u.username == username)

/-- The effect of `userRepository.UpdateUser` (`UpdateOne` with a full
`$set` keyed by `_id`): the matching document is replaced. -/
def updateUser (us : List User) (u' : User) : List User :=
  us.map (fun x => if x.id == u'.id then u' else x)

/-- The effect of `userRepository.DeleteUser` (`DeleteOne` keyed by
`_id`): the matching document is removed; MongoDB reports no error when
nothing matches. -/
def deleteUser (us : List User) (id : String) : List User :=
  us.filter (fun x => !(x.id == id))

namespace Usecase

/-- `UserUseCase.UpdateBalance` (`usecase.go` lines 258-260):
a pass-through to the repository's balance increment. -/
def UpdateBalance (s : RepoState) (userID : String) (amount : ℚ) :
    RepoState × Option GoErr :=
  UpdateUserBalance s userID amount

/-- `UserUseCase.GetBalance` (`usecase.go` lines 250-256): load the
user, return its balance. -/
def GetBalance (s : RepoState) (userID : String) : Except GoErr ℚ :=
  match GetUserByID s userID with
  | .error e => .error e
  | .ok u => .ok u.balance

/-- `UserUseCase.TransferBalance` (`usecase.go` lines 266-294):
load sender (`errors.New("sender not found")` on failure); fail with a
fresh `errors.New("insufficient balance")` when `fromUser.Balance <
amount`; load recipient (`errors.New("recipient not found")` on
failure); debit `-amount` from the sender; credit `+amount` to the
receiver; if the credit fails, attempt a compensating `+amount` back to
the sender, discarding that attempt's own result (`_ =`), and return
the credit's error. -/
def TransferBalance (s : RepoState) (fromUserID toUserID : String) (amount : ℚ) :
    RepoState × Option GoErr :=
  match GetUserByID s fromUserID with
  | .error _ => (s, some .freshSenderNotFound)
  | .ok fromUser =>
    if fromUser.balance < amount then
      (s, some .freshInsufficientBalance)
    else
      match GetUserByID s toUserID with
      | .error _ => (s, some .freshRecipientNotFound)
      | .ok _ =>
        match UpdateUserBalance s fromUserID (-amount) with
        | (s1, some e) => (s1, some e)
        | (s1, none) =>
          match UpdateUserBalance s1 toUserID amount with
          | (s2, some e) =>
            (UpdateUserBalance s2 fromUserID amount).1 |> (·, some e)
          | (s2, none) => (s2, none)

end Usecase

/-- gRPC status codes used by the user-service handler. -/
inductive GrpcCode where
  | internal
  | notFound
  | invalidArgument
  | failedPrecondition
deriving Repr, DecidableEq

/-- A `status.Error(code, msg)` value. -/
structure GrpcError where
  code : GrpcCode
  msg : String
deriving Repr, DecidableEq

namespace Handler

/-- `UserHandler.UpdateBalance` (`handler.go` lines 145-170): map the
`operation` string to a signed amount (`"add"` → `+amount`,
`"subtract"` → `-amount`, anything else → `InvalidArgument`), apply the
use-case balance update, then re-read and return the new balance. -/
def UpdateBalance (s : RepoState) (userId operation : String) (amount : ℚ) :
    RepoState × Except GrpcError ℚ :=
  match (if operation == "add" then some amount
         else if operation == "subtract" then some (-amount) else none) with
  | none => (s, .error ⟨.invalidArgument, "invalid operation"⟩)
  | some signed =>
    match Usecase.UpdateBalance s userId signed with
    | (s1, some _) => (s1, .error ⟨.internal, "failed to update balance"⟩)
    | (s1, none) =>
      match Usecase.GetBalance s1 userId with
      | .error _ => (s1, .error ⟨.internal, "failed to get updated balance"⟩)
      | .ok b => (s1, .ok b)

/-- `UserHandler.TransferBalance` (`handler.go` lines 172-185): run the
use-case transfer; on error, return `FailedPrecondition "insufficient
balance"` when `errors.Is(err, usecase.ErrInsufficientBalance)` holds,
otherwise `Internal "transfer failed"`; on success return `true`. -/
def TransferBalance (s : RepoState) (fromId toId : String) (amount : ℚ) :
    RepoState × Except GrpcError Bool :=
  match Usecase.TransferBalance s fromId toId amount with
  | (s1, some e) =>
    if errorsIs e .sentinelInsufficientBalance then
      (s1, .error ⟨.failedPrecondition, "insufficient balance"⟩)
    else
      (s1, .error ⟨.internal, "transfer failed"⟩)
  | (s1, none) => (s1, .ok true)

end Handler

/-! ## The cached use-case layer

The caching variant of the user use-case keeps a process-local
`go-cache` in front of the repository.  Cache values are Go
`interface{}` payloads decoded by type assertion; the model carries a
sum type so that a stored value can fail to decode as the type a read
expects.  Per-entry TTL durations are not modelled: every claim about
the cache concerns reads immediately following a write, inside any TTL
window. -/

/-- A value stored in the process-local cache: either a `*models.User`
or a `float64` balance (the two payload types the user use-case
stores).  A read that type-asserts the other constructor fails to
decode. -/
inductive CacheVal where
  | vUser (u : User)
  | vBal (b : ℚ)
deriving Repr, DecidableEq

/-- The process-local cache: an association list from keys to stored
values (at most one live entry per key, as in `go-cache`). -/
structure CacheState where
  entries : List (String × CacheVal)
deriving Repr, DecidableEq

/-- `cache.Get`: the live entry for a key, if any. -/
def cacheGet (c : CacheState) (k : String) : Option CacheVal :=
  (c.entries.find? (fun e => e.1 == k)).map (·.2)

/-- `cache.Delete`: remove the entry for a key (no-op if absent). -/
def cacheDelete (c : CacheState) (k : String) : CacheState :=
  ⟨c.entries.filter (fun e => !(e.1 == k))⟩

/-- `cache.Set`: unconditionally overwrite the entry for a key. -/
def cacheSet (c : CacheState) (k : String) (v : CacheVal) : CacheState :=
  ⟨(k, v) :: (cacheDelete c k).entries⟩

/-- Cache key prefix `"user:id:"` (cached `usecase.go` line 36). -/
def CacheKeyUserByID : String := "user:id:"
/-- Cache key prefix `"user:email:"`. -/
def CacheKeyUserByEmail : String := "user:email:"
/-- Cache key prefix `"user:username:"`. -/
def CacheKeyUserByUsername : String := "user:username:"
/-- Cache key prefix `"balance:"`. -/
def CacheKeyBalance : String := "balance:"

/-- A password-reset token (`models.PasswordResetToken`): `Token`,
`Email`, and `ExpiresAt` — the wall-clock comparison
`ExpiresAt.Before(time.Now())` is abstracted as the `expired` flag,
the only fact about the timestamp the code observes. -/
structure PasswordResetToken where
  token : String
  email : String
  expired : Bool
deriving Repr, DecidableEq

/-- `passwordResetTokenRepository.GetPasswordResetToken`: `FindOne`
keyed by `token`. -/
def findResetToken (ts : List PasswordResetToken) (token : String) :
    Option PasswordResetToken :=
  ts.find? (fun t => t.token == token)

/-- The effect of `passwordResetTokenRepository.DeletePasswordResetToken`
(`DeleteOne` keyed by `token`). -/
def deleteResetToken (ts : List PasswordResetToken) (token : String) :
    List PasswordResetToken :=
  ts.filter (fun t => !(t.token == token))

namespace Cached

/-- Combined state of the cached use-case: the repository plus the
process-local cache. -/
structure UCState where
  repo : RepoState
  cache : CacheState
deriving Repr, DecidableEq

/-- `getUserFromCache` (cached `usecase.go` lines 77-86): a hit only
when the entry exists *and* type-asserts to `*models.User`; any other
outcome — absent entry or failed assertion — is reported as a miss. -/
def getUserFromCache (c : CacheState) (key : String) : Option User :=
  match cacheGet c key with
  | some (.vUser u) => some u
  | _ => none

/-- `setUserCache`: store a user under a key. -/
def setUserCache (c : CacheState) (key : String) (u : User) : CacheState :=
  cacheSet c key (.vUser u)

/-- `invalidateUserCache` (cached `usecase.go` lines 93-99): delete the
by-id, by-email, by-username and balance keys of one user. -/
def invalidateUserCache (c : CacheState) (userID email username : String) : CacheState :=
  cacheDelete
    (cacheDelete
      (cacheDelete (cacheDelete c (CacheKeyUserByID ++ userID))
        (CacheKeyUserByEmail ++ email))
      (CacheKeyUserByUsername ++ username))
    (CacheKeyBalance ++ userID)

/-- `UserUseCase.GetUserProfile` (cached `usecase.go` lines 321-339):
serve from the by-id cache entry when it decodes as a user; otherwise
read the repository and, on success, populate the by-id, by-email and
by-username entries. -/
def GetUserProfile (st : UCState) (userID : String) : UCState × Except GoErr User :=
  match getUserFromCache st.cache (CacheKeyUserByID ++ userID) with
  | some u => (st, .ok u)
  | none =>
    match GetUserByID st.repo userID with
    | .error e => (st, .error e)
    | .ok u =>
      let c := setUserCache st.cache (CacheKeyUserByID ++ userID) u
      let c := setUserCache c (CacheKeyUserByEmail ++ u.email) u
      let c := setUserCache c (CacheKeyUserByUsername ++ u.username) u
      (⟨st.repo, c⟩, .ok u)

/-- `UserUseCase.GetBalance` (cached `usecase.go` lines 389-408): serve
the balance key when its entry decodes as `float64`; otherwise fall
back to `GetUserProfile` and, on success, cache the balance. -/
def GetBalance (st : UCState) (userID : String) : UCState × Except GoErr ℚ :=
  match cacheGet st.cache (CacheKeyBalance ++ userID) with
  | some (.vBal b) => (st, .ok b)
  | _ =>
    match GetUserProfile st userID with
    | (st1, .error e) => (st1, .error e)
    | (st1, .ok u) =>
      (⟨st1.repo, cacheSet st1.cache (CacheKeyBalance ++ userID) (.vBal u.balance)⟩,
       .ok u.balance)

/-- `UserUseCase.UpdateBalance` (cached `usecase.go` lines 410-421):
apply the repository increment; on success delete the balance key and
the by-id key — and only those two. -/
def UpdateBalance (st : UCState) (userID : String) (amount : ℚ) :
    UCState × Option GoErr :=
  match UpdateUserBalance st.repo userID amount with
  | (r1, some e) => (⟨r1, st.cache⟩, some e)
  | (r1, none) =>
    let c := cacheDelete st.cache (CacheKeyBalance ++ userID)
    let c := cacheDelete c (CacheKeyUserByID ++ userID)
    (⟨r1, c⟩, none)

/-- `UserUseCase.TransferBalance` (cached `usecase.go` lines 441-475):
the same saga as the uncached variant, but the two existence checks go
through `GetUserProfile` (so may be served from cache), and on success
the balance and by-id keys of both parties are deleted. -/
def TransferBalance (st : UCState) (fromUserID toUserID : String) (amount : ℚ) :
    UCState × Option GoErr :=
  match GetUserProfile st fromUserID with
  | (st1, .error _) => (st1, some .freshSenderNotFound)
  | (st1, .ok fromUser) =>
    if fromUser.balance < amount then
      (st1, some .freshInsufficientBalance)
    else
      match GetUserProfile st1 toUserID with
      | (st2, .error _) => (st2, some .freshRecipientNotFound)
      | (st2, .ok _) =>
        match UpdateUserBalance st2.repo fromUserID (-amount) with
        | (r1, some e) => (⟨r1, st2.cache⟩, some e)
        | (r1, none) =>
          match UpdateUserBalance r1 toUserID amount with
          | (r2, some e) =>
            (⟨(UpdateUserBalance r2 fromUserID amount).1, st2.cache⟩, some e)
          | (r2, none) =>
            let c := cacheDelete st2.cache (CacheKeyBalance ++ fromUserID)
            let c := cacheDelete c (CacheKeyBalance ++ toUserID)
            let c := cacheDelete c (CacheKeyUserByID ++ fromUserID)
            let c := cacheDelete c (CacheKeyUserByID ++ toUserID)
            (⟨r2, c⟩, none)

/-- `UserUseCase.DeleteUser` (cached `usecase.go` lines 423-439): read
the profile (to learn the email/username for invalidation), delete the
repository document, then invalidate all four cache keys of the user. -/
def DeleteUser (st : UCState) (userID : String) : UCState × Option GoErr :=
  match GetUserProfile st userID with
  | (st1, .error e) => (st1, some e)
  | (st1, .ok u) =>
    (⟨{ st1.repo with users := deleteUser st1.repo.users userID },
      invalidateUserCache st1.cache userID u.email u.username⟩, none)

/-- `UserUseCase.UpdateUserProfile` (cached `usecase.go` lines
341-386): read the profile; when the email changes, reject if the new
email is cached or present in the repository (`errors.New("email
already in use")`), and likewise for the username; then write the
updated record, delete the *old* email/username cache keys and set the
by-id, by-email and by-username keys to the new record. -/
def UpdateUserProfile (st : UCState) (userID username email : String) :
    UCState × Except GoErr User :=
  match GetUserProfile st userID with
  | (st1, .error e) => (st1, .error e)
  | (st1, .ok user) =>
    if (!(email == user.email)) &&
        ((getUserFromCache st1.cache (CacheKeyUserByEmail ++ email)).isSome ||
         (findUserByEmail st1.repo.users email).isSome) then
      (st1, .error .freshEmailInUse)
    else if (!(username == user.username)) &&
        ((getUserFromCache st1.cache (CacheKeyUserByUsername ++ username)).isSome ||
         (findUserByUsername st1.repo.users username).isSome) then
      (st1, .error .freshUsernameInUse)
    else
      let user' := { user with username := username, email := email }
      let r1 := { st1.repo with users := updateUser st1.repo.users user' }
      let c := cacheDelete st1.cache (CacheKeyUserByEmail ++ user.email)
      let c := cacheDelete c (CacheKeyUserByUsername ++ user.username)
      let c := setUserCache c (CacheKeyUserByID ++ userID) user'
      let c := setUserCache c (CacheKeyUserByEmail ++ email) user'
      let c := setUserCache c (CacheKeyUserByUsername ++ username) user'
      (⟨r1, c⟩, .ok user')

/-- `UserUseCase.ResetPassword` (cached `usecase.go` lines 255-292):
look up the reset token (`errors.New("invalid or expired token")` when
absent); when expired, delete the token and fail with
`errors.New("token expired")`; resolve the user by the token's email —
from the cache when the entry decodes as a user, otherwise from the
repository *without* populating the cache; store the hashed password
through `UpdateUser`; invalidate all four cache keys of the user; and
delete the consumed token.  The bcrypt hash is the external
collaborator `hash` (its failure path is not modelled); the session
wipe (`DeleteSessionsForUser`, its error discarded with `_ =`) touches
neither the user store nor the cache and is omitted; the final token
deletion is modelled as succeeding.  Returns the updated token list
alongside the state. -/
def ResetPassword (st : UCState) (tokens : List PasswordResetToken)
    (hash : String → String) (token newPassword : String) :
    UCState × List PasswordResetToken × Option GoErr :=
  match findResetToken tokens token with
  | none => (st, tokens, some .freshInvalidToken)
  | some resetToken =>
    if resetToken.expired then
      (st, deleteResetToken tokens token, some .freshTokenExpired)
    else
      match
        (match getUserFromCache st.cache (CacheKeyUserByEmail ++ resetToken.email) with
         | some cachedUser => some cachedUser
         | none => findUserByEmail st.repo.users resetToken.email) with
      | none => (st, tokens, some .freshUserNotFound)
      | some user =>
        let user' := { user with password := hash newPassword }
        (⟨{ st.repo with users := updateUser st.repo.users user' },
          invalidateUserCache st.cache user'.id user'.email user'.username⟩,
         deleteResetToken tokens token, none)

end Cached

/-! ## Transaction statistics

`transaction-service/internal/repository/mongo/transaction_repository.go`,
`GetTransactionStats` (lines 211-292): a MongoDB aggregation — `$match`
on optional user and date-range filters, then a single `$group` with
`$sum`/`$cond`/`$avg` accumulators.  The pipeline's arithmetic is
embedded directly: counters are sums of `$cond` 1/0 terms, and the
empty-`$match` case yields no group document, which the Go code maps to
the zero-valued `TransactionStats`. -/

/-- Transaction status strings (`transaction-service` models). -/
inductive TransactionStatus where
  | PENDING
  | COMPLETED
  | FAILED
  | CANCELLED
deriving Repr, DecidableEq

/-- The fields of a transaction document the statistics pipeline
reads: `amount`, `status`, `buyer_id`, `seller_id`, `date` (dates are
compared as strings by the `$gte`/`$lte` range filter, exactly as the
source passes string dates into the match stage). -/
structure Transaction where
  amount : ℚ
  status : TransactionStatus
  buyerId : String
  sellerId : String
  date : String
deriving Repr, DecidableEq

/-- The `TransactionStats` result struct (lines 295-301). -/
structure TransactionStats where
  totalTransactions : ℤ
  totalAmount : ℚ
  successfulTransactions : ℤ
  failedTransactions : ℤ
  averageAmount : ℚ
deriving Repr, DecidableEq

/-- The `$match` filter of `GetTransactionStats`: an optional
`$or` on `buyer_id`/`seller_id`, and an optional `$gte`/`$lte` range on
the string `date` field (each bound active only when non-empty). -/
def statsMatch (userID : Option String) (startDate endDate : String)
    (t : Transaction) : Bool :=
  (match userID with
   | some uid => t.buyerId == uid || t.sellerId == uid
   | none => true)
  && (startDate == "" || decide (startDate ≤ t.date))
  && (endDate == "" || decide (t.date ≤ endDate))

/-- `GetTransactionStats` (lines 211-292): aggregate the matching
documents with the `$group` accumulators
`total_transactions = $sum 1`,
`total_amount = $sum $amount`,
`successful_transactions = $sum (cond (status = COMPLETED) 1 0)`,
`failed_transactions = $sum (cond (status in [FAILED, CANCELLED]) 1 0)`,
`average_amount = $avg $amount`.
A `$group` over zero input documents emits no result document, and the
Go code turns the empty result list into `&TransactionStats{}` (all
fields zero, no error). -/
def GetTransactionStats (txs : List Transaction) (userID : Option String)
    (startDate endDate : String) : TransactionStats :=
  let fs := txs.filter (statsMatch userID startDate endDate)
  if fs.isEmpty then ⟨0, 0, 0, 0, 0⟩
  else
    { totalTransactions := (fs.map (fun _ => (1 : ℤ))).sum
      totalAmount := (fs.map (·.amount)).sum
      successfulTransactions :=
        (fs.map (fun t => if t.status == .COMPLETED then (1 : ℤ) else 0)).sum
      failedTransactions :=
        (fs.map (fun t =>
          if t.status == .FAILED || t.status == .CANCELLED then (1 : ℤ) else 0)).sum
      averageAmount := (fs.map (·.amount)).sum / fs.length }

/-! ## Concrete states used by witnesses and counterexamples -/

/-- Demo sender with balance 100 (spec's concrete scenario). -/
def demoA : User := ⟨"A", "alice", "alice@example.com", "pw", 100, false⟩

/-- Demo receiver with balance 50. -/
def demoB : User := ⟨"B", "bob", "bob@example.com", "pw", 50, false⟩

/-- Fault-free store holding `demoA` and `demoB`. -/
def demoState : RepoState := ⟨[demoA, demoB], 0, []⟩

/-- Sender holding only 20, for the insufficient-balance scenario. -/
def poorA : User := ⟨"A", "alice", "alice@example.com", "pw", 20, false⟩

/-- Fault-free store where the sender holds 20. -/
def poorState : RepoState := ⟨[poorA, demoB], 0, []⟩

/-- Store with a fault schedule failing the credit and then also the
compensating rollback (calls 1 and 2). -/
def faultBoth : RepoState := ⟨[demoA, demoB], 0, [1, 2]⟩

/-- Store with a fault schedule failing only the credit (call 1). -/
def faultCredit : RepoState := ⟨[demoA, demoB], 0, [1]⟩

/-- The two-record list of the spec's concrete statistics scenario. -/
def demoTxs : List Transaction :=
  [⟨10, .COMPLETED, "u1", "u2", "2024-01-01"⟩,
   ⟨20, .FAILED, "u1", "u2", "2024-01-02"⟩]

/-- Cache whose balance-key entry holds a user object and whose by-id
entry holds a raw balance: both decode to the wrong type. -/
def mismatchCache : CacheState :=
  ⟨[(CacheKeyBalance ++ "A", .vUser demoA), (CacheKeyUserByID ++ "A", .vBal 7)]⟩

/-- A cache seeded with one by-username copy of `demoA`, as a `Login`
would leave it. -/
def staleCache : CacheState :=
  ⟨[(CacheKeyUserByUsername ++ "alice", .vUser demoA)]⟩

/-- A single unexpired reset token for `demoA`'s email. -/
def demoTokens : List PasswordResetToken :=
  [⟨"tok1", "alice@example.com", false⟩]

/-! ## Helper lemmas -/

theorem findUser_some_id {us : List User} {id : String} {u : User}
    (h : findUser us id = some u) : u.id = id := by
  have := List.find?_some h
  simpa using this

theorem findUser_incBalance (us : List User) (id : String) (δ : ℚ) (id' : String) :
    findUser (incBalance us id δ) id' =
      (findUser us id').map
        (fun u => if u.id == id then { u with balance := u.balance + δ } else u) := by
  induction us with
  | nil => simp [incBalance, findUser]
  | cons u us ih =>
    by_cases hid : u.id = id <;> by_cases hid' : u.id = id' <;>
      simp_all [incBalance, findUser, List.find?_cons]

theorem findUser_incBalance_self {us : List User} {id : String} {u : User}
    (δ : ℚ) (h : findUser us id = some u) :
    findUser (incBalance us id δ) id = some { u with balance := u.balance + δ } := by
  rw [findUser_incBalance, h]
  simp [findUser_some_id h]

theorem findUser_incBalance_ne {us : List User} {id id' : String}
    (δ : ℚ) (hne : id ≠ id') :
    findUser (incBalance us id δ) id' = findUser us id' := by
  rw [findUser_incBalance]
  cases hfind : findUser us id' with
  | none => rfl
  | some u =>
    have : u.id = id' := findUser_some_id hfind
    simp [this, Ne.symm hne]

theorem cacheGet_delete (c : CacheState) (k k' : String) :
    cacheGet (cacheDelete c k) k' = if k' = k then none else cacheGet c k' := by
  obtain ⟨es⟩ := c
  by_cases hk : k' = k
  · subst hk
    simp only [cacheGet, cacheDelete, if_true]
    induction es with
    | nil => simp
    | cons e es ih =>
      by_cases he : e.1 = k' <;> simp_all [List.filter_cons, List.find?_cons]
  · simp only [cacheGet, cacheDelete, hk, if_false]
    induction es with
    | nil => simp
    | cons e es ih =>
      by_cases he : e.1 = k <;> by_cases he' : e.1 = k' <;>
        simp_all [List.filter_cons, List.find?_cons]

theorem cacheGet_set (c : CacheState) (k : String) (v : CacheVal) (k' : String) :
    cacheGet (cacheSet c k v) k' = if k' = k then some v else cacheGet c k' := by
  by_cases hk : k' = k
  · subst hk
    simp [cacheGet, cacheSet, List.find?_cons]
  · have h1 : ((k : String) == k') = false := by
      simp only [beq_eq_false_iff_ne, ne_eq]
      exact fun h => hk h.symm
    simp only [cacheGet, cacheSet, List.find?_cons, h1, if_false, hk]
    simpa [cacheGet, hk] using cacheGet_delete c k k'

/-- Two cache keys built from equal-length but distinct prefixes are
distinct, whatever the suffixes. -/
theorem append_ne_of_prefix_ne {p q : String} (u v : String)
    (hlen : p.length = q.length) (hne : p ≠ q) : p ++ u ≠ q ++ v := by
  intro h
  apply hne
  have hd : p.data ++ u.data = q.data ++ v.data := by
    have := congrArg String.data h
    rwa [String.data_append, String.data_append] at this
  exact String.ext (List.append_inj_left hd hlen)

/-- Two cache keys sharing a prefix but with distinct suffixes are
distinct. -/
theorem append_ne_of_suffix_ne {a b : String} (p : String) (hne : a ≠ b) :
    p ++ a ≠ p ++ b := by
  intro h
  apply hne
  have hd : p.data ++ a.data = p.data ++ b.data := by
    have := congrArg String.data h
    rwa [String.data_append, String.data_append] at this
  exact String.ext (List.append_cancel_left hd)

/-- Two cache keys whose prefixes differ at a character position are
distinct, whatever the suffixes (covers prefixes of unequal length). -/
theorem append_ne_of_data_get {p q : String} (u v : String) (i : Nat)
    (hip : i < p.data.length) (hiq : i < q.data.length)
    (hne : p.data.get? i ≠ q.data.get? i) : p ++ u ≠ q ++ v := by
  intro h
  apply hne
  have hd : p.data ++ u.data = q.data ++ v.data := by
    have := congrArg String.data h
    rwa [String.data_append, String.data_append] at this
  calc p.data.get? i = (p.data ++ u.data).get? i := (List.get?_append hip).symm
    _ = (q.data ++ v.data).get? i := by rw [hd]
    _ = q.data.get? i := List.get?_append hiq

/-- Evaluation of the uncached transfer on the happy path: with no
injected faults, an existing sender with sufficient balance and an
existing receiver, the saga performs exactly the two increments. -/
theorem transferBalance_success_eq (s : RepoState) (A B : String) (amount : ℚ)
    (uA : User) (hA : findUser s.users A = some uA)
    (hfail : s.failAt = []) (hbal : ¬ uA.balance < amount)
    (hB : (findUser s.users B).isSome = true) :
    Usecase.TransferBalance s A B amount =
      ({ s with users := incBalance (incBalance s.users A (-amount)) B amount,
                callIdx := s.callIdx + 1 + 1 }, none) := by
  obtain ⟨uB, hB⟩ := Option.isSome_iff_exists.mp hB
  simp [Usecase.TransferBalance, GetUserByID, UpdateUserBalance, hA, hB, hbal, hfail]

/-! ## Claim theorems -/

/-- C1: for distinct existing users `A` and `B` with
`balance(A) ≥ amount` (and no repository faults),
`transfer(A, B, amount)` succeeds, the final balances are
`balance(A) - amount` and `balance(B) + amount`, and their sum is
conserved. -/
theorem C1_transfer_conserves_sum (s : RepoState) (A B : String) (amount : ℚ)
    (uA uB : User) (hA : findUser s.users A = some uA)
    (hB : findUser s.users B = some uB) (hne : A ≠ B)
    (hfail : s.failAt = []) (hbal : amount ≤ uA.balance) :
    (Usecase.TransferBalance s A B amount).2 = none ∧
    findUser (Usecase.TransferBalance s A B amount).1.users A =
      some { uA with balance := uA.balance - amount } ∧
    findUser (Usecase.TransferBalance s A B amount).1.users B =
      some { uB with balance := uB.balance + amount } ∧
    (uA.balance - amount) + (uB.balance + amount) = uA.balance + uB.balance := by
  have hb' : ¬ uA.balance < amount := not_lt.mpr hbal
  have heq := transferBalance_success_eq s A B amount uA hA hfail hb'
    (by rw [hB]; rfl)
  rw [heq]
  refine ⟨rfl, ?_, ?_, by ring⟩
  · show findUser (incBalance (incBalance s.users A (-amount)) B amount) A = _
    rw [findUser_incBalance_ne amount (Ne.symm hne),
      findUser_incBalance_self (-amount) hA]
    simp [sub_eq_add_neg]
  · show findUser (incBalance (incBalance s.users A (-amount)) B amount) B = _
    have hB' : findUser (incBalance s.users A (-amount)) B = some uB := by
      rw [findUser_incBalance_ne (-amount) hne, hB]
    rw [findUser_incBalance_self amount hB']

/-- Witness for C1 at the spec's scenario `A=100, B=50, amount=30`. -/
theorem C1_transfer_conserves_sum_witness :
    (Usecase.TransferBalance demoState "A" "B" 30).2 = none ∧
    findUser (Usecase.TransferBalance demoState "A" "B" 30).1.users "A" =
      some { demoA with balance := demoA.balance - 30 } ∧
    findUser (Usecase.TransferBalance demoState "A" "B" 30).1.users "B" =
      some { demoB with balance := demoB.balance + 30 } ∧
    (demoA.balance - 30) + (demoB.balance + 30) = demoA.balance + demoB.balance :=
  C1_transfer_conserves_sum demoState "A" "B" 30 demoA demoB rfl rfl
    (by decide) rfl (by norm_num [demoA])

/-- C9: a self-transfer with sufficient balance is accepted: the two
increments land on the same record sequentially, the call succeeds and
the record (in particular its balance) is exactly as before. -/
theorem C9_self_transfer_noop (s : RepoState) (A : String) (amount : ℚ)
    (uA : User) (hA : findUser s.users A = some uA)
    (hfail : s.failAt = []) (hbal : amount ≤ uA.balance) :
    (Usecase.TransferBalance s A A amount).2 = none ∧
    findUser (Usecase.TransferBalance s A A amount).1.users A = some uA := by
  have hb' : ¬ uA.balance < amount := not_lt.mpr hbal
  have heq := transferBalance_success_eq s A A amount uA hA hfail hb'
    (by rw [hA]; rfl)
  rw [heq]
  refine ⟨rfl, ?_⟩
  show findUser (incBalance (incBalance s.users A (-amount)) A amount) A = _
  rw [findUser_incBalance_self amount (findUser_incBalance_self (-amount) hA)]
  congr 1
  cases uA with
  | mk i un em pw b ad => simp

/-- Witness for C9: self-transfer of 30 on a balance of 100. -/
theorem C9_self_transfer_noop_witness :
    (Usecase.TransferBalance demoState "A" "A" 30).2 = none ∧
    findUser (Usecase.TransferBalance demoState "A" "A" 30).1.users "A" =
      some demoA :=
  C9_self_transfer_noop demoState "A" 30 demoA rfl rfl (by norm_num [demoA])

/-- C2: with `balance(A) = 20 < 30 = amount`, the use-case returns the
*fresh* `errors.New("insufficient balance")` allocation and performs no
mutation (the state is returned unchanged) — but that fresh allocation
is not the package sentinel `ErrInsufficientBalance`, so the handler's
`errors.Is` test fails and the caller receives
`Internal "transfer failed"` instead of the intended
`FailedPrecondition "insufficient balance"` classification. -/
theorem C2_insufficient_balance_misclassified :
    Usecase.TransferBalance poorState "A" "B" 30 =
      (poorState, some GoErr.freshInsufficientBalance) ∧
    Handler.TransferBalance poorState "A" "B" 30 =
      (poorState, .error ⟨.internal, "transfer failed"⟩) ∧
    errorsIs .freshInsufficientBalance .sentinelInsufficientBalance = false :=
  ⟨rfl, rfl, rfl⟩

/-- C10: `UpdateBalance` with operation `"subtract"` applies the signed
delta with no insufficient-funds check: for an existing user and an
amount exceeding the balance, the call succeeds and the stored balance
goes negative. -/
theorem C10_subtract_goes_negative (s : RepoState) (uid : String) (amount : ℚ)
    (u : User) (hU : findUser s.users uid = some u)
    (hfail : s.failAt = []) (hgt : u.balance < amount) :
    (Handler.UpdateBalance s uid "subtract" amount).2 = .ok (u.balance - amount) ∧
    findUser (Handler.UpdateBalance s uid "subtract" amount).1.users uid =
      some { u with balance := u.balance - amount } ∧
    u.balance - amount < 0 := by
  have h1 : findUser (incBalance s.users uid (-amount)) uid =
      some { u with balance := u.balance + -amount } :=
    findUser_incBalance_self (-amount) hU
  refine ⟨?_, ?_, by linarith⟩
  · simp [Handler.UpdateBalance, Usecase.UpdateBalance, UpdateUserBalance,
      Usecase.GetBalance, GetUserByID, hfail, h1, sub_eq_add_neg]
  · simp [Handler.UpdateBalance, Usecase.UpdateBalance, UpdateUserBalance,
      Usecase.GetBalance, GetUserByID, hfail, h1, sub_eq_add_neg]

/-- Witness for C10: subtracting 150 from a balance of 100 yields −50. -/
theorem C10_subtract_goes_negative_witness :
    (Handler.UpdateBalance demoState "A" "subtract" 150).2 =
      .ok (demoA.balance - 150) ∧
    findUser (Handler.UpdateBalance demoState "A" "subtract" 150).1.users "A" =
      some { demoA with balance := demoA.balance - 150 } ∧
    demoA.balance - 150 < 0 :=
  C10_subtract_goes_negative demoState "A" 150 demoA rfl rfl (by norm_num [demoA])

/-- C4 counterexample: `transfer(A, B, -10)` with balances `A=100,
B=50` is *not* rejected with `InvalidArgument`; it succeeds and moves
10 from the receiver to the sender (`A=110, B=40`). -/
theorem C4_counterexample_negative_amount_accepted :
    (Handler.TransferBalance demoState "A" "B" (-10)).2 = .ok true ∧
    findUser (Handler.TransferBalance demoState "A" "B" (-10)).1.users "A" =
      some { demoA with balance := 110 } ∧
    findUser (Handler.TransferBalance demoState "A" "B" (-10)).1.users "B" =
      some { demoB with balance := 40 } := by
  have heq := transferBalance_success_eq demoState "A" "B" (-10) demoA rfl rfl
    (by norm_num [demoA]) rfl
  have hh : Handler.TransferBalance demoState "A" "B" (-10) =
      ({ demoState with
          users := incBalance (incBalance demoState.users "A" (-(-10))) "B" (-10),
          callIdx := demoState.callIdx + 1 + 1 }, .ok true) := by
    unfold Handler.TransferBalance
    rw [heq]
  rw [hh]
  refine ⟨rfl, ?_, ?_⟩
  · show findUser (incBalance (incBalance demoState.users "A" (-(-10))) "B" (-10)) "A" = _
    rw [findUser_incBalance_ne (-10) (by decide),
      findUser_incBalance_self (-(-10))
        (show findUser demoState.users "A" = some demoA from rfl)]
    norm_num [demoA]
  · show findUser (incBalance (incBalance demoState.users "A" (-(-10))) "B" (-10)) "B" = _
    have hB' : findUser (incBalance demoState.users "A" (-(-10))) "B" = some demoB := by
      rw [findUser_incBalance_ne (-(-10)) (by decide)]
      rfl
    rw [findUser_incBalance_self (-10) hB']
    norm_num [demoB]

/-- C4 amended: no positivity check exists on the transfer path; a call
with non-positive `amount` (both users present, `balance(A) ≥ amount`,
no faults) is processed like any other: it succeeds, debiting `amount`
from the sender and crediting it to the receiver — for a negative
amount this moves money from receiver to sender. -/
theorem C4_amended_nonpositive_processed (s : RepoState) (A B : String)
    (amount : ℚ) (uA uB : User) (hA : findUser s.users A = some uA)
    (hB : findUser s.users B = some uB) (hne : A ≠ B)
    (hfail : s.failAt = []) (hamt : amount ≤ 0) (hbal : amount ≤ uA.balance) :
    (Handler.TransferBalance s A B amount).2 = .ok true ∧
    findUser (Handler.TransferBalance s A B amount).1.users A =
      some { uA with balance := uA.balance - amount } ∧
    findUser (Handler.TransferBalance s A B amount).1.users B =
      some { uB with balance := uB.balance + amount } := by
  have hb' : ¬ uA.balance < amount := not_lt.mpr hbal
  have heq := transferBalance_success_eq s A B amount uA hA hfail hb'
    (by rw [hB]; rfl)
  have hh : Handler.TransferBalance s A B amount =
      ({ s with users := incBalance (incBalance s.users A (-amount)) B amount,
                callIdx := s.callIdx + 1 + 1 }, .ok true) := by
    unfold Handler.TransferBalance
    rw [heq]
  rw [hh]
  refine ⟨rfl, ?_, ?_⟩
  · show findUser (incBalance (incBalance s.users A (-amount)) B amount) A = _
    rw [findUser_incBalance_ne amount (Ne.symm hne),
      findUser_incBalance_self (-amount) hA]
    simp [sub_eq_add_neg]
  · show findUser (incBalance (incBalance s.users A (-amount)) B amount) B = _
    have hB' : findUser (incBalance s.users A (-amount)) B = some uB := by
      rw [findUser_incBalance_ne (-amount) hne, hB]
    rw [findUser_incBalance_self amount hB']

/-- Witness for the amended C4 at `amount = -10`. -/
theorem C4_amended_nonpositive_processed_witness :
    (Handler.TransferBalance demoState "A" "B" (-10)).2 = .ok true ∧
    findUser (Handler.TransferBalance demoState "A" "B" (-10)).1.users "A" =
      some { demoA with balance := demoA.balance - (-10) } ∧
    findUser (Handler.TransferBalance demoState "A" "B" (-10)).1.users "B" =
      some { demoB with balance := demoB.balance + (-10) } :=
  C4_amended_nonpositive_processed demoState "A" "B" (-10) demoA demoB rfl rfl
    (by decide) rfl (by norm_num) (by norm_num [demoA])

/-- Evaluation of the transfer when the debit succeeds and the credit
fails: the compensating increment is attempted, its own outcome is
discarded, and the credit's error is returned in either case. -/
theorem transferBalance_creditFault_eq (s : RepoState) (A B : String)
    (amount : ℚ) (uA : User) (hA : findUser s.users A = some uA)
    (hb : ¬ uA.balance < amount) (hBex : (findUser s.users B).isSome = true)
    (hdeb : s.failAt.contains s.callIdx = false)
    (hcred : s.failAt.contains (s.callIdx + 1) = true) :
    Usecase.TransferBalance s A B amount =
      (if s.failAt.contains (s.callIdx + 1 + 1) then
        { s with users := incBalance s.users A (-amount),
                 callIdx := s.callIdx + 1 + 1 + 1 }
       else
        { s with users := incBalance (incBalance s.users A (-amount)) A amount,
                 callIdx := s.callIdx + 1 + 1 + 1 },
       some (.ioFault (s.callIdx + 1))) := by
  obtain ⟨uB, hB⟩ := Option.isSome_iff_exists.mp hBex
  have hdeb' : ¬ s.callIdx ∈ s.failAt := by simpa using hdeb
  have hcred' : (s.callIdx + 1) ∈ s.failAt := by simpa using hcred
  by_cases hcomp : (s.callIdx + 1 + 1) ∈ s.failAt <;>
    simp [Usecase.TransferBalance, GetUserByID, UpdateUserBalance, hA, hB, hb,
      hdeb', hcred', hcomp]

/-- C3 counterexample: when the credit fails, the returned error is the
*same value* (`ioFault 1`, the original credit failure) whether the
compensating rollback fails (`faultBoth`: sender left debited at 70) or
succeeds (`faultCredit`: sender restored to 100).  No
`PartialTransferUnrecovered` classification exists, so the
unrecovered case is not distinguishable from an ordinary failure. -/
theorem C3_counterexample_unrecovered_indistinguishable :
    (Usecase.TransferBalance faultBoth "A" "B" 30).2 = some (GoErr.ioFault 1) ∧
    (Usecase.TransferBalance faultCredit "A" "B" 30).2 = some (GoErr.ioFault 1) ∧
    findUser (Usecase.TransferBalance faultBoth "A" "B" 30).1.users "A" =
      some { demoA with balance := demoA.balance - 30 } ∧
    findUser (Usecase.TransferBalance faultCredit "A" "B" 30).1.users "A" =
      some demoA := by
  have h1 := transferBalance_creditFault_eq faultBoth "A" "B" 30 demoA rfl
    (by norm_num [demoA]) rfl rfl rfl
  have h2 := transferBalance_creditFault_eq faultCredit "A" "B" 30 demoA rfl
    (by norm_num [demoA]) rfl rfl rfl
  rw [if_pos (by decide)] at h1
  rw [if_neg (by decide)] at h2
  refine ⟨by rw [h1]; rfl, by rw [h2]; rfl, ?_, ?_⟩
  · rw [h1]
    show findUser (incBalance faultBoth.users "A" (-30)) "A" = _
    rw [findUser_incBalance_self (-30)
      (show findUser faultBoth.users "A" = some demoA from rfl)]
    simp [sub_eq_add_neg]
  · rw [h2]
    show findUser (incBalance (incBalance faultCredit.users "A" (-30)) "A" 30) "A" = _
    rw [findUser_incBalance_self 30 (findUser_incBalance_self (-30)
      (show findUser faultCredit.users "A" = some demoA from rfl))]
    norm_num

/-- C3 amended: if the credit fails after a successful debit, a
compensating `+amount` increment is attempted on the sender and the
original credit failure is surfaced to the caller; the compensation's
own outcome is discarded, so the very same error value is returned
whether it succeeded (sender restored, receiver untouched) or failed
(sender left debited) — there is no distinct
`PartialTransferUnrecovered` classification. -/
theorem C3_amended_compensation_best_effort (s : RepoState) (A B : String)
    (amount : ℚ) (uA uB : User) (hA : findUser s.users A = some uA)
    (hB : findUser s.users B = some uB) (hne : A ≠ B)
    (hbal : amount ≤ uA.balance)
    (hdeb : s.failAt.contains s.callIdx = false)
    (hcred : s.failAt.contains (s.callIdx + 1) = true) :
    (Usecase.TransferBalance s A B amount).2 =
      some (.ioFault (s.callIdx + 1)) ∧
    findUser (Usecase.TransferBalance s A B amount).1.users B = some uB ∧
    (s.failAt.contains (s.callIdx + 1 + 1) = true →
      findUser (Usecase.TransferBalance s A B amount).1.users A =
        some { uA with balance := uA.balance - amount }) ∧
    (s.failAt.contains (s.callIdx + 1 + 1) = false →
      findUser (Usecase.TransferBalance s A B amount).1.users A = some uA) := by
  have hb' : ¬ uA.balance < amount := not_lt.mpr hbal
  have heq := transferBalance_creditFault_eq s A B amount uA hA hb'
    (by rw [hB]; rfl) hdeb hcred
  by_cases hcomp : s.failAt.contains (s.callIdx + 1 + 1)
  · rw [if_pos hcomp] at heq
    rw [heq]
    refine ⟨rfl, ?_, fun _ => ?_, fun hc => by rw [hc] at hcomp; exact Bool.noConfusion hcomp⟩
    · show findUser (incBalance s.users A (-amount)) B = some uB
      rw [findUser_incBalance_ne (-amount) hne, hB]
    · show findUser (incBalance s.users A (-amount)) A = _
      rw [findUser_incBalance_self (-amount) hA]
      simp [sub_eq_add_neg]
  · rw [if_neg hcomp] at heq
    rw [heq]
    refine ⟨rfl, ?_, fun hc => absurd hc hcomp, fun _ => ?_⟩
    · show findUser (incBalance (incBalance s.users A (-amount)) A amount) B = some uB
      rw [findUser_incBalance_ne amount hne, findUser_incBalance_ne (-amount) hne, hB]
    · show findUser (incBalance (incBalance s.users A (-amount)) A amount) A = _
      rw [findUser_incBalance_self amount (findUser_incBalance_self (-amount) hA)]
      congr 1
      cases uA with
      | mk i un em pw b ad => simp

/-- Witness for the amended C3 at the `faultBoth` schedule. -/
theorem C3_amended_compensation_best_effort_witness :
    (Usecase.TransferBalance faultBoth "A" "B" 30).2 =
      some (.ioFault (faultBoth.callIdx + 1)) ∧
    findUser (Usecase.TransferBalance faultBoth "A" "B" 30).1.users "B" =
      some demoB ∧
    (faultBoth.failAt.contains (faultBoth.callIdx + 1 + 1) = true →
      findUser (Usecase.TransferBalance faultBoth "A" "B" 30).1.users "A" =
        some { demoA with balance := demoA.balance - 30 }) ∧
    (faultBoth.failAt.contains (faultBoth.callIdx + 1 + 1) = false →
      findUser (Usecase.TransferBalance faultBoth "A" "B" 30).1.users "A" =
        some demoA) :=
  C3_amended_compensation_best_effort faultBoth "A" "B" 30 demoA demoB rfl rfl
    (by decide) (by norm_num [demoA]) rfl rfl

/-- A `$sum` of `$cond`-style 1/0 terms counts the matching records. -/
theorem sum_boole_eq_length_filter (p : Transaction → Bool) (l : List Transaction) :
    (l.map (fun t => if p t then (1 : ℤ) else 0)).sum = (l.filter p).length := by
  induction l with
  | nil => simp
  | cons t l ih =>
    by_cases h : p t <;> simp [List.filter_cons, h, ih] <;> ring

/-- C6: over the filtered set, `successCount` is the number of
`COMPLETED` records, `failureCount` the number of `FAILED` or
`CANCELLED` records (aggregated together), `total` the record count,
`totalAmount` the sum of amounts and `averageAmount` their arithmetic
mean; on the spec's two-record scenario this yields
`⟨2, 30, 1, 1, 15⟩`. -/
theorem C6_stats_definition (txs : List Transaction) (userID : Option String)
    (startDate endDate : String)
    (hne : txs.filter (statsMatch userID startDate endDate) ≠ []) :
    (GetTransactionStats txs userID startDate endDate).totalTransactions =
      (txs.filter (statsMatch userID startDate endDate)).length ∧
    (GetTransactionStats txs userID startDate endDate).totalAmount =
      ((txs.filter (statsMatch userID startDate endDate)).map (·.amount)).sum ∧
    (GetTransactionStats txs userID startDate endDate).successfulTransactions =
      ((txs.filter (statsMatch userID startDate endDate)).filter
        (fun t => t.status == .COMPLETED)).length ∧
    (GetTransactionStats txs userID startDate endDate).failedTransactions =
      ((txs.filter (statsMatch userID startDate endDate)).filter
        (fun t => t.status == .FAILED || t.status == .CANCELLED)).length ∧
    (GetTransactionStats txs userID startDate endDate).averageAmount =
      ((txs.filter (statsMatch userID startDate endDate)).map (·.amount)).sum /
        (txs.filter (statsMatch userID startDate endDate)).length ∧
    GetTransactionStats demoTxs none "" "" = ⟨2, 30, 1, 1, 15⟩ := by
  have hemp : (txs.filter (statsMatch userID startDate endDate)).isEmpty = false := by
    simpa [List.isEmpty_iff] using hne
  refine ⟨?_, ?_, ?_, ?_, ?_, ?_⟩
  · simp [GetTransactionStats, hemp, List.map_const', List.sum_replicate]
  · simp [GetTransactionStats, hemp]
  · simp only [GetTransactionStats, hemp, if_neg, Bool.false_eq_true,
      not_false_iff, if_false]
    exact sum_boole_eq_length_filter _ _
  · simp only [GetTransactionStats, hemp, if_neg, Bool.false_eq_true,
      not_false_iff, if_false]
    exact sum_boole_eq_length_filter _ _
  · simp [GetTransactionStats, hemp]
  · norm_num [GetTransactionStats, demoTxs, statsMatch, List.filter]
    exact ⟨by decide, by decide, by decide⟩

/-- Witness for C6 at the spec's two-record scenario. -/
theorem C6_stats_definition_witness :
    (GetTransactionStats demoTxs none "" "").totalTransactions =
      (demoTxs.filter (statsMatch none "" "")).length ∧
    (GetTransactionStats demoTxs none "" "").totalAmount =
      ((demoTxs.filter (statsMatch none "" "")).map (·.amount)).sum ∧
    (GetTransactionStats demoTxs none "" "").successfulTransactions =
      ((demoTxs.filter (statsMatch none "" "")).filter
        (fun t => t.status == .COMPLETED)).length ∧
    (GetTransactionStats demoTxs none "" "").failedTransactions =
      ((demoTxs.filter (statsMatch none "" "")).filter
        (fun t => t.status == .FAILED || t.status == .CANCELLED)).length ∧
    (GetTransactionStats demoTxs none "" "").averageAmount =
      ((demoTxs.filter (statsMatch none "" "")).map (·.amount)).sum /
        (demoTxs.filter (statsMatch none "" "")).length ∧
    GetTransactionStats demoTxs none "" "" = ⟨2, 30, 1, 1, 15⟩ :=
  C6_stats_definition demoTxs none "" "" (by decide)

/-- C7: when no transaction matches the filters, every field of the
returned statistics is zero (the aggregation emits no group document
and the code returns the zero struct with a nil error). -/
theorem C7_stats_empty_all_zero (txs : List Transaction) (userID : Option String)
    (startDate endDate : String)
    (h : txs.filter (statsMatch userID startDate endDate) = []) :
    GetTransactionStats txs userID startDate endDate = ⟨0, 0, 0, 0, 0⟩ := by
  simp [GetTransactionStats, h]

/-- Witness for C7 on the empty collection. -/
theorem C7_stats_empty_all_zero_witness :
    GetTransactionStats [] none "" "" = ⟨0, 0, 0, 0, 0⟩ :=
  C7_stats_empty_all_zero [] none "" "" rfl

/-- C8: when the balance-key entry and the by-id entry both exist but
fail to decode as the expected types, the read behaves exactly like a
double cache miss: it falls through to the repository and returns the
stored balance successfully — the decode faults are never surfaced as
an error. -/
theorem C8_decode_mismatch_is_miss (repo : RepoState) (c : CacheState)
    (uid : String) (u : User) (vb vu : CacheVal)
    (hU : findUser repo.users uid = some u)
    (hvb : cacheGet c (CacheKeyBalance ++ uid) = some vb)
    (hvbm : ∀ b, vb ≠ .vBal b)
    (hvu : cacheGet c (CacheKeyUserByID ++ uid) = some vu)
    (hvum : ∀ w, vu ≠ .vUser w) :
    (Cached.GetBalance ⟨repo, c⟩ uid).2 = .ok u.balance ∧
    Cached.getUserFromCache c (CacheKeyUserByID ++ uid) = none := by
  have hmiss : Cached.getUserFromCache c (CacheKeyUserByID ++ uid) = none := by
    unfold Cached.getUserFromCache
    rw [hvu]
    cases vu with
    | vUser w => exact absurd rfl (hvum w)
    | vBal b => rfl
  refine ⟨?_, hmiss⟩
  cases vb with
  | vBal b => exact absurd rfl (hvbm b)
  | vUser w =>
    simp [Cached.GetBalance, Cached.GetUserProfile, GetUserByID, hvb, hmiss, hU]

/-- Witness for C8: both mismatched entries degrade to misses and the
repository's balance (100) is returned without error. -/
theorem C8_decode_mismatch_is_miss_witness :
    (Cached.GetBalance ⟨demoState, mismatchCache⟩ "A").2 = .ok demoA.balance ∧
    Cached.getUserFromCache mismatchCache (CacheKeyUserByID ++ "A") = none :=
  C8_decode_mismatch_is_miss demoState mismatchCache "A" demoA
    (.vUser demoA) (.vBal 7) rfl rfl
    (fun b h => CacheVal.noConfusion h) rfl
    (fun w h => CacheVal.noConfusion h)

/-! ## Cache-key disjointness facts -/

theorem kb_ne_ki (u v : String) : CacheKeyBalance ++ u ≠ CacheKeyUserByID ++ v :=
  append_ne_of_prefix_ne u v (by decide) (by decide)

theorem kb_ne_ke (u v : String) : CacheKeyBalance ++ u ≠ CacheKeyUserByEmail ++ v :=
  append_ne_of_data_get u v 0 (by decide) (by decide) (by decide)

theorem kb_ne_ku (u v : String) :
    CacheKeyBalance ++ u ≠ CacheKeyUserByUsername ++ v :=
  append_ne_of_data_get u v 0 (by decide) (by decide) (by decide)

theorem ki_ne_ke (u v : String) :
    CacheKeyUserByID ++ u ≠ CacheKeyUserByEmail ++ v :=
  append_ne_of_data_get u v 5 (by decide) (by decide) (by decide)

theorem ki_ne_ku (u v : String) :
    CacheKeyUserByID ++ u ≠ CacheKeyUserByUsername ++ v :=
  append_ne_of_data_get u v 5 (by decide) (by decide) (by decide)

theorem ke_ne_ku (u v : String) :
    CacheKeyUserByEmail ++ u ≠ CacheKeyUserByUsername ++ v :=
  append_ne_of_data_get u v 5 (by decide) (by decide) (by decide)

/-- C5 counterexample: a successful `UpdateBalance` leaves the
by-username cached copy of the user untouched: the repository balance
becomes 150 while the `user:username:alice` entry still decodes to the
old record with balance 100 — a single-entity key exposing the changed
field that is neither invalidated nor overwritten before the write
returns. -/
theorem C5_counterexample_username_copy_stale :
    (Cached.UpdateBalance ⟨demoState, staleCache⟩ "A" 50).2 = none ∧
    findUser (Cached.UpdateBalance ⟨demoState, staleCache⟩ "A" 50).1.repo.users
      "A" = some { demoA with balance := 150 } ∧
    cacheGet (Cached.UpdateBalance ⟨demoState, staleCache⟩ "A" 50).1.cache
      (CacheKeyUserByUsername ++ "alice") = some (.vUser demoA) ∧
    demoA.balance ≠ 150 := by
  have hres : Cached.UpdateBalance ⟨demoState, staleCache⟩ "A" 50 =
      (⟨{ users := incBalance demoState.users "A" 50, callIdx := 1, failAt := [] },
        cacheDelete (cacheDelete staleCache (CacheKeyBalance ++ "A"))
          (CacheKeyUserByID ++ "A")⟩, none) := by
    simp [Cached.UpdateBalance, UpdateUserBalance, demoState]
  rw [hres]
  refine ⟨rfl, ?_, ?_, by norm_num [demoA]⟩
  · show findUser (incBalance demoState.users "A" 50) "A" = _
    rw [findUser_incBalance_self 50
      (show findUser demoState.users "A" = some demoA from rfl)]
    norm_num [demoA]
  · show cacheGet (cacheDelete (cacheDelete staleCache (CacheKeyBalance ++ "A"))
      (CacheKeyUserByID ++ "A")) (CacheKeyUserByUsername ++ "alice") = _
    rw [cacheGet_delete, if_neg (ki_ne_ku "A" "alice").symm,
      cacheGet_delete, if_neg (kb_ne_ku "A" "alice").symm]
    rfl

/-- Cache effect of a successful cached `UpdateBalance`: exactly the
balance and by-id keys are removed, every other key is untouched, and
the next balance read returns the freshly incremented value. -/
theorem updateBalance_cache_spec (st : Cached.UCState) (uid : String)
    (amount : ℚ) (u : User) (hU : findUser st.repo.users uid = some u)
    (hfail : st.repo.failAt = []) :
    (Cached.UpdateBalance st uid amount).2 = none ∧
    cacheGet (Cached.UpdateBalance st uid amount).1.cache
      (CacheKeyBalance ++ uid) = none ∧
    cacheGet (Cached.UpdateBalance st uid amount).1.cache
      (CacheKeyUserByID ++ uid) = none ∧
    (∀ k, k ≠ CacheKeyBalance ++ uid → k ≠ CacheKeyUserByID ++ uid →
      cacheGet (Cached.UpdateBalance st uid amount).1.cache k =
        cacheGet st.cache k) ∧
    (Cached.GetBalance (Cached.UpdateBalance st uid amount).1 uid).2 =
      .ok (u.balance + amount) := by
  have hres : Cached.UpdateBalance st uid amount =
      (⟨{ users := incBalance st.repo.users uid amount,
          callIdx := st.repo.callIdx + 1, failAt := st.repo.failAt },
        cacheDelete (cacheDelete st.cache (CacheKeyBalance ++ uid))
          (CacheKeyUserByID ++ uid)⟩, none) := by
    simp [Cached.UpdateBalance, UpdateUserBalance, hfail]
  rw [hres]
  have hb : cacheGet (cacheDelete (cacheDelete st.cache (CacheKeyBalance ++ uid))
      (CacheKeyUserByID ++ uid)) (CacheKeyBalance ++ uid) = none := by
    rw [cacheGet_delete, if_neg (kb_ne_ki uid uid), cacheGet_delete, if_pos rfl]
  have hi : cacheGet (cacheDelete (cacheDelete st.cache (CacheKeyBalance ++ uid))
      (CacheKeyUserByID ++ uid)) (CacheKeyUserByID ++ uid) = none := by
    rw [cacheGet_delete, if_pos rfl]
  refine ⟨rfl, hb, hi, ?_, ?_⟩
  · intro k hk1 hk2
    show cacheGet (cacheDelete (cacheDelete st.cache (CacheKeyBalance ++ uid))
      (CacheKeyUserByID ++ uid)) k = cacheGet st.cache k
    rw [cacheGet_delete, if_neg hk2, cacheGet_delete, if_neg hk1]
  · have hfind : findUser (incBalance st.repo.users uid amount) uid =
        some { u with balance := u.balance + amount } :=
      findUser_incBalance_self amount hU
    simp [Cached.GetBalance, Cached.GetUserProfile, Cached.getUserFromCache,
      GetUserByID, hb, hi, hfind]

/-- Cache effect of a successful cached `TransferBalance` (starting
from cold by-id entries): the balance and by-id keys of both parties
are removed before the call returns. -/
theorem transferBalance_cache_spec (st : Cached.UCState) (A B : String)
    (amount : ℚ) (uA uB : User)
    (hA : findUser st.repo.users A = some uA)
    (hB : findUser st.repo.users B = some uB) (hAB : A ≠ B)
    (hfail : st.repo.failAt = []) (hbal : amount ≤ uA.balance)
    (hcA : cacheGet st.cache (CacheKeyUserByID ++ A) = none)
    (hcB : cacheGet st.cache (CacheKeyUserByID ++ B) = none) :
    (Cached.TransferBalance st A B amount).2 = none ∧
    cacheGet (Cached.TransferBalance st A B amount).1.cache
      (CacheKeyBalance ++ A) = none ∧
    cacheGet (Cached.TransferBalance st A B amount).1.cache
      (CacheKeyBalance ++ B) = none ∧
    cacheGet (Cached.TransferBalance st A B amount).1.cache
      (CacheKeyUserByID ++ A) = none ∧
    cacheGet (Cached.TransferBalance st A B amount).1.cache
      (CacheKeyUserByID ++ B) = none := by
  have hbal' : ¬ uA.balance < amount := not_lt.mpr hbal
  have hp1 : Cached.GetUserProfile st A =
      (⟨st.repo, Cached.setUserCache (Cached.setUserCache
          (Cached.setUserCache st.cache (CacheKeyUserByID ++ A) uA)
          (CacheKeyUserByEmail ++ uA.email) uA)
          (CacheKeyUserByUsername ++ uA.username) uA⟩, .ok uA) := by
    simp [Cached.GetUserProfile, Cached.getUserFromCache, hcA, GetUserByID, hA]
  have hgB : cacheGet (Cached.setUserCache (Cached.setUserCache
      (Cached.setUserCache st.cache (CacheKeyUserByID ++ A) uA)
      (CacheKeyUserByEmail ++ uA.email) uA)
      (CacheKeyUserByUsername ++ uA.username) uA)
      (CacheKeyUserByID ++ B) = none := by
    rw [Cached.setUserCache, cacheGet_set, if_neg (ki_ne_ku B uA.username),
      Cached.setUserCache, cacheGet_set, if_neg (ki_ne_ke B uA.email),
      Cached.setUserCache, cacheGet_set,
      if_neg (append_ne_of_suffix_ne CacheKeyUserByID (Ne.symm hAB)), hcB]
  have hp2 : Cached.GetUserProfile
      (⟨st.repo, Cached.setUserCache (Cached.setUserCache
          (Cached.setUserCache st.cache (CacheKeyUserByID ++ A) uA)
          (CacheKeyUserByEmail ++ uA.email) uA)
          (CacheKeyUserByUsername ++ uA.username) uA⟩ : Cached.UCState) B =
      (⟨st.repo, Cached.setUserCache (Cached.setUserCache
          (Cached.setUserCache (Cached.setUserCache (Cached.setUserCache
            (Cached.setUserCache st.cache (CacheKeyUserByID ++ A) uA)
            (CacheKeyUserByEmail ++ uA.email) uA)
            (CacheKeyUserByUsername ++ uA.username) uA)
            (CacheKeyUserByID ++ B) uB)
          (CacheKeyUserByEmail ++ uB.email) uB)
          (CacheKeyUserByUsername ++ uB.username) uB⟩, .ok uB) := by
    simp [Cached.GetUserProfile, Cached.getUserFromCache, hgB, GetUserByID, hB]
  have hres :
      (Cached.TransferBalance st A B amount).1.cache =
        cacheDelete (cacheDelete (cacheDelete (cacheDelete
          (Cached.setUserCache (Cached.setUserCache
            (Cached.setUserCache (Cached.setUserCache (Cached.setUserCache
              (Cached.setUserCache st.cache (CacheKeyUserByID ++ A) uA)
              (CacheKeyUserByEmail ++ uA.email) uA)
              (CacheKeyUserByUsername ++ uA.username) uA)
              (CacheKeyUserByID ++ B) uB)
            (CacheKeyUserByEmail ++ uB.email) uB)
            (CacheKeyUserByUsername ++ uB.username) uB)
          (CacheKeyBalance ++ A)) (CacheKeyBalance ++ B))
          (CacheKeyUserByID ++ A)) (CacheKeyUserByID ++ B) ∧
      (Cached.TransferBalance st A B amount).2 = none := by
    rw [Cached.TransferBalance, hp1]
    simp only [hbal', if_false, hp2]
    simp [UpdateUserBalance, hfail]
  refine ⟨hres.2, ?_, ?_, ?_, ?_⟩
  · rw [hres.1, cacheGet_delete, if_neg (kb_ne_ki A B), cacheGet_delete,
      if_neg (kb_ne_ki A A), cacheGet_delete,
      if_neg (append_ne_of_suffix_ne CacheKeyBalance hAB), cacheGet_delete,
      if_pos rfl]
  · rw [hres.1, cacheGet_delete, if_neg (kb_ne_ki B B), cacheGet_delete,
      if_neg (kb_ne_ki B A), cacheGet_delete, if_pos rfl]
  · rw [hres.1, cacheGet_delete,
      if_neg (append_ne_of_suffix_ne CacheKeyUserByID hAB), cacheGet_delete,
      if_pos rfl]
  · rw [hres.1, cacheGet_delete, if_pos rfl]

/-- After `DeleteOne`, the deleted id no longer resolves. -/
theorem findUser_deleteUser (us : List User) (id : String) :
    findUser (deleteUser us id) id = none := by
  induction us with
  | nil => rfl
  | cons u us ih =>
    by_cases h : u.id = id <;>
      simp_all [deleteUser, findUser, List.filter_cons, List.find?_cons]

/-- Cache effect of a successful cached `DeleteUser` (starting from a
cold by-id entry): the record is removed from the repository and all
four cache keys of the user are removed. -/
theorem deleteUser_cache_spec (st : Cached.UCState) (uid : String) (u : User)
    (hU : findUser st.repo.users uid = some u)
    (hcold : cacheGet st.cache (CacheKeyUserByID ++ uid) = none) :
    (Cached.DeleteUser st uid).2 = none ∧
    findUser (Cached.DeleteUser st uid).1.repo.users uid = none ∧
    cacheGet (Cached.DeleteUser st uid).1.cache
      (CacheKeyUserByID ++ uid) = none ∧
    cacheGet (Cached.DeleteUser st uid).1.cache
      (CacheKeyUserByEmail ++ u.email) = none ∧
    cacheGet (Cached.DeleteUser st uid).1.cache
      (CacheKeyUserByUsername ++ u.username) = none ∧
    cacheGet (Cached.DeleteUser st uid).1.cache
      (CacheKeyBalance ++ uid) = none := by
  have hp1 : Cached.GetUserProfile st uid =
      (⟨st.repo, Cached.setUserCache (Cached.setUserCache
          (Cached.setUserCache st.cache (CacheKeyUserByID ++ uid) u)
          (CacheKeyUserByEmail ++ u.email) u)
          (CacheKeyUserByUsername ++ u.username) u⟩, .ok u) := by
    simp [Cached.GetUserProfile, Cached.getUserFromCache, hcold, GetUserByID, hU]
  have hres : Cached.DeleteUser st uid =
      (⟨{ users := deleteUser st.repo.users uid, callIdx := st.repo.callIdx,
          failAt := st.repo.failAt },
        Cached.invalidateUserCache (Cached.setUserCache (Cached.setUserCache
          (Cached.setUserCache st.cache (CacheKeyUserByID ++ uid) u)
          (CacheKeyUserByEmail ++ u.email) u)
          (CacheKeyUserByUsername ++ u.username) u) uid u.email u.username⟩,
       none) := by
    simp [Cached.DeleteUser, hp1]
  rw [hres]
  refine ⟨rfl, findUser_deleteUser _ _, ?_, ?_, ?_, ?_⟩ <;>
    simp only [Cached.invalidateUserCache]
  · rw [cacheGet_delete, if_neg (kb_ne_ki uid uid).symm, cacheGet_delete,
      if_neg (ki_ne_ku uid u.username), cacheGet_delete,
      if_neg (ki_ne_ke uid u.email), cacheGet_delete, if_pos rfl]
  · rw [cacheGet_delete, if_neg (kb_ne_ke uid u.email).symm, cacheGet_delete,
      if_neg (ke_ne_ku u.email u.username), cacheGet_delete, if_pos rfl]
  · rw [cacheGet_delete, if_neg (kb_ne_ku uid u.username).symm, cacheGet_delete,
      if_pos rfl]
  · rw [cacheGet_delete, if_pos rfl]

/-- `UpdateOne` with a full `$set` behaves as a pointwise replacement
on the matching id (replacement preserves the id, so lookups
commute). -/
theorem findUser_updateUser (us : List User) (u' : User) (id' : String) :
    findUser (updateUser us u') id' =
      (findUser us id').map (fun x => if x.id == u'.id then u' else x) := by
  induction us with
  | nil => simp [updateUser, findUser]
  | cons x us ih =>
    by_cases h1 : x.id = u'.id <;> by_cases h2 : x.id = id' <;>
      simp_all [updateUser, findUser, List.find?_cons]

/-- Cache effect of a successful cached `UpdateUserProfile` changing
both username and email (starting from a cold by-id entry, with the new
identifiers available): the by-id, by-email and by-username keys are
overwritten with the new record and the old email/username keys are
removed before the call returns. -/
theorem updateUserProfile_cache_spec (st : Cached.UCState)
    (uid username email : String) (u : User)
    (hU : findUser st.repo.users uid = some u)
    (hcold : cacheGet st.cache (CacheKeyUserByID ++ uid) = none)
    (hem : email ≠ u.email) (hun : username ≠ u.username)
    (hce : cacheGet st.cache (CacheKeyUserByEmail ++ email) = none)
    (hre : findUserByEmail st.repo.users email = none)
    (hcu : cacheGet st.cache (CacheKeyUserByUsername ++ username) = none)
    (hru : findUserByUsername st.repo.users username = none) :
    (Cached.UpdateUserProfile st uid username email).2 =
      .ok { u with username := username, email := email } ∧
    findUser (Cached.UpdateUserProfile st uid username email).1.repo.users uid =
      some { u with username := username, email := email } ∧
    cacheGet (Cached.UpdateUserProfile st uid username email).1.cache
      (CacheKeyUserByID ++ uid) =
      some (.vUser { u with username := username, email := email }) ∧
    cacheGet (Cached.UpdateUserProfile st uid username email).1.cache
      (CacheKeyUserByEmail ++ email) =
      some (.vUser { u with username := username, email := email }) ∧
    cacheGet (Cached.UpdateUserProfile st uid username email).1.cache
      (CacheKeyUserByUsername ++ username) =
      some (.vUser { u with username := username, email := email }) ∧
    cacheGet (Cached.UpdateUserProfile st uid username email).1.cache
      (CacheKeyUserByEmail ++ u.email) = none ∧
    cacheGet (Cached.UpdateUserProfile st uid username email).1.cache
      (CacheKeyUserByUsername ++ u.username) = none := by
  have hp1 : Cached.GetUserProfile st uid =
      (⟨st.repo, Cached.setUserCache (Cached.setUserCache
          (Cached.setUserCache st.cache (CacheKeyUserByID ++ uid) u)
          (CacheKeyUserByEmail ++ u.email) u)
          (CacheKeyUserByUsername ++ u.username) u⟩, .ok u) := by
    simp [Cached.GetUserProfile, Cached.getUserFromCache, hcold, GetUserByID, hU]
  have hA1 : cacheGet (Cached.setUserCache (Cached.setUserCache
      (Cached.setUserCache st.cache (CacheKeyUserByID ++ uid) u)
      (CacheKeyUserByEmail ++ u.email) u)
      (CacheKeyUserByUsername ++ u.username) u)
      (CacheKeyUserByEmail ++ email) = none := by
    rw [Cached.setUserCache, cacheGet_set, if_neg (ke_ne_ku email u.username),
      Cached.setUserCache, cacheGet_set,
      if_neg (append_ne_of_suffix_ne CacheKeyUserByEmail hem),
      Cached.setUserCache, cacheGet_set, if_neg (ki_ne_ke uid email).symm, hce]
  have hA2 : cacheGet (Cached.setUserCache (Cached.setUserCache
      (Cached.setUserCache st.cache (CacheKeyUserByID ++ uid) u)
      (CacheKeyUserByEmail ++ u.email) u)
      (CacheKeyUserByUsername ++ u.username) u)
      (CacheKeyUserByUsername ++ username) = none := by
    rw [Cached.setUserCache, cacheGet_set,
      if_neg (append_ne_of_suffix_ne CacheKeyUserByUsername hun),
      Cached.setUserCache, cacheGet_set,
      if_neg (ke_ne_ku u.email username).symm,
      Cached.setUserCache, cacheGet_set, if_neg (ki_ne_ku uid username).symm,
      hcu]
  have hres : Cached.UpdateUserProfile st uid username email =
      (⟨{ users := updateUser st.repo.users
            { u with username := username, email := email },
          callIdx := st.repo.callIdx, failAt := st.repo.failAt },
        Cached.setUserCache (Cached.setUserCache (Cached.setUserCache
          (cacheDelete (cacheDelete (Cached.setUserCache (Cached.setUserCache
              (Cached.setUserCache st.cache (CacheKeyUserByID ++ uid) u)
              (CacheKeyUserByEmail ++ u.email) u)
              (CacheKeyUserByUsername ++ u.username) u)
            (CacheKeyUserByEmail ++ u.email)) (CacheKeyUserByUsername ++ u.username))
          (CacheKeyUserByID ++ uid) { u with username := username, email := email })
          (CacheKeyUserByEmail ++ email) { u with username := username, email := email })
          (CacheKeyUserByUsername ++ username)
          { u with username := username, email := email }⟩,
       .ok { u with username := username, email := email }) := by
    simp [Cached.UpdateUserProfile, hp1, Cached.getUserFromCache, hA1, hA2,
      hre, hru]
  rw [hres]
  refine ⟨rfl, ?_, ?_, ?_, ?_, ?_, ?_⟩
  · show findUser (updateUser st.repo.users
      { u with username := username, email := email }) uid = _
    rw [findUser_updateUser, hU]
    simp
  · show cacheGet _ (CacheKeyUserByID ++ uid) = _
    rw [Cached.setUserCache, cacheGet_set, if_neg (ki_ne_ku uid username),
      Cached.setUserCache, cacheGet_set, if_neg (ki_ne_ke uid email),
      Cached.setUserCache, cacheGet_set, if_pos rfl]
  · show cacheGet _ (CacheKeyUserByEmail ++ email) = _
    rw [Cached.setUserCache, cacheGet_set, if_neg (ke_ne_ku email username),
      Cached.setUserCache, cacheGet_set, if_pos rfl]
  · show cacheGet _ (CacheKeyUserByUsername ++ username) = _
    rw [Cached.setUserCache, cacheGet_set, if_pos rfl]
  · show cacheGet _ (CacheKeyUserByEmail ++ u.email) = _
    rw [Cached.setUserCache, cacheGet_set, if_neg (ke_ne_ku u.email username),
      Cached.setUserCache, cacheGet_set,
      if_neg (append_ne_of_suffix_ne CacheKeyUserByEmail (Ne.symm hem)),
      Cached.setUserCache, cacheGet_set, if_neg (ki_ne_ke uid u.email).symm,
      cacheGet_delete, if_neg (ke_ne_ku u.email u.username), cacheGet_delete,
      if_pos rfl]
  · show cacheGet _ (CacheKeyUserByUsername ++ u.username) = _
    rw [Cached.setUserCache, cacheGet_set,
      if_neg (append_ne_of_suffix_ne CacheKeyUserByUsername (Ne.symm hun)),
      Cached.setUserCache, cacheGet_set,
      if_neg (ke_ne_ku email u.username).symm,
      Cached.setUserCache, cacheGet_set, if_neg (ki_ne_ku uid u.username).symm,
      cacheGet_delete, if_pos rfl]

/-- Cache effect of a successful cached `ResetPassword` (valid
unexpired token, cold by-email entry, unique ids): the password is
rewritten in the repository, the consumed token is removed, and all
four cache keys of the user are removed before the call returns. -/
theorem resetPassword_cache_spec (st : Cached.UCState)
    (tokens : List PasswordResetToken) (hash : String → String)
    (token newPassword : String) (t : PasswordResetToken) (u : User)
    (ht : findResetToken tokens token = some t)
    (hexp : t.expired = false)
    (hcold : cacheGet st.cache (CacheKeyUserByEmail ++ t.email) = none)
    (hU : findUserByEmail st.repo.users t.email = some u)
    (hUID : findUser st.repo.users u.id = some u) :
    (Cached.ResetPassword st tokens hash token newPassword).2.2 = none ∧
    (Cached.ResetPassword st tokens hash token newPassword).2.1 =
      deleteResetToken tokens token ∧
    findUser
      (Cached.ResetPassword st tokens hash token newPassword).1.repo.users
      u.id = some { u with password := hash newPassword } ∧
    cacheGet (Cached.ResetPassword st tokens hash token newPassword).1.cache
      (CacheKeyUserByID ++ u.id) = none ∧
    cacheGet (Cached.ResetPassword st tokens hash token newPassword).1.cache
      (CacheKeyUserByEmail ++ u.email) = none ∧
    cacheGet (Cached.ResetPassword st tokens hash token newPassword).1.cache
      (CacheKeyUserByUsername ++ u.username) = none ∧
    cacheGet (Cached.ResetPassword st tokens hash token newPassword).1.cache
      (CacheKeyBalance ++ u.id) = none := by
  have hmiss : Cached.getUserFromCache st.cache
      (CacheKeyUserByEmail ++ t.email) = none := by
    simp [Cached.getUserFromCache, hcold]
  have hres : Cached.ResetPassword st tokens hash token newPassword =
      (⟨{ users := updateUser st.repo.users
            { u with password := hash newPassword },
          callIdx := st.repo.callIdx, failAt := st.repo.failAt },
        Cached.invalidateUserCache st.cache u.id u.email u.username⟩,
       deleteResetToken tokens token, none) := by
    simp [Cached.ResetPassword, ht, hexp, hmiss, hU]
  rw [hres]
  refine ⟨rfl, rfl, ?_, ?_, ?_, ?_, ?_⟩
  · show findUser (updateUser st.repo.users
      { u with password := hash newPassword }) u.id = _
    rw [findUser_updateUser, hUID]
    simp
  all_goals simp only [Cached.invalidateUserCache]
  · rw [cacheGet_delete, if_neg (kb_ne_ki u.id u.id).symm, cacheGet_delete,
      if_neg (ki_ne_ku u.id u.username), cacheGet_delete,
      if_neg (ki_ne_ke u.id u.email), cacheGet_delete, if_pos rfl]
  · rw [cacheGet_delete, if_neg (kb_ne_ke u.id u.email).symm, cacheGet_delete,
      if_neg (ke_ne_ku u.email u.username), cacheGet_delete, if_pos rfl]
  · rw [cacheGet_delete, if_neg (kb_ne_ku u.id u.username).symm,
      cacheGet_delete, if_pos rfl]
  · rw [cacheGet_delete, if_pos rfl]

/-- C5 (amended): the balance writes (`UpdateBalance`,
`TransferBalance`) invalidate only the balance and by-id cache keys of
the affected user(s) before returning — point reads through those keys
see the new value, while by-email and by-username cached copies are
left untouched and can serve the old balance until TTL expiry; the
writes that go through `invalidateUserCache` or explicit
delete-and-overwrite (delete, profile update, password reset) do
invalidate or overwrite every single-entity key exposing the changed
fields before returning. -/
theorem C5_amended_write_invalidation :
    (∀ (st : Cached.UCState) (uid : String) (amount : ℚ) (u : User),
      findUser st.repo.users uid = some u → st.repo.failAt = [] →
      (Cached.UpdateBalance st uid amount).2 = none ∧
      cacheGet (Cached.UpdateBalance st uid amount).1.cache
        (CacheKeyBalance ++ uid) = none ∧
      cacheGet (Cached.UpdateBalance st uid amount).1.cache
        (CacheKeyUserByID ++ uid) = none ∧
      (∀ k, k ≠ CacheKeyBalance ++ uid → k ≠ CacheKeyUserByID ++ uid →
        cacheGet (Cached.UpdateBalance st uid amount).1.cache k =
          cacheGet st.cache k) ∧
      (Cached.GetBalance (Cached.UpdateBalance st uid amount).1 uid).2 =
        .ok (u.balance + amount)) ∧
    (∀ (st : Cached.UCState) (A B : String) (amount : ℚ) (uA uB : User),
      findUser st.repo.users A = some uA → findUser st.repo.users B = some uB →
      A ≠ B → st.repo.failAt = [] → amount ≤ uA.balance →
      cacheGet st.cache (CacheKeyUserByID ++ A) = none →
      cacheGet st.cache (CacheKeyUserByID ++ B) = none →
      (Cached.TransferBalance st A B amount).2 = none ∧
      cacheGet (Cached.TransferBalance st A B amount).1.cache
        (CacheKeyBalance ++ A) = none ∧
      cacheGet (Cached.TransferBalance st A B amount).1.cache
        (CacheKeyBalance ++ B) = none ∧
      cacheGet (Cached.TransferBalance st A B amount).1.cache
        (CacheKeyUserByID ++ A) = none ∧
      cacheGet (Cached.TransferBalance st A B amount).1.cache
        (CacheKeyUserByID ++ B) = none) ∧
    (∀ (st : Cached.UCState) (uid : String) (u : User),
      findUser st.repo.users uid = some u →
      cacheGet st.cache (CacheKeyUserByID ++ uid) = none →
      (Cached.DeleteUser st uid).2 = none ∧
      findUser (Cached.DeleteUser st uid).1.repo.users uid = none ∧
      cacheGet (Cached.DeleteUser st uid).1.cache
        (CacheKeyUserByID ++ uid) = none ∧
      cacheGet (Cached.DeleteUser st uid).1.cache
        (CacheKeyUserByEmail ++ u.email) = none ∧
      cacheGet (Cached.DeleteUser st uid).1.cache
        (CacheKeyUserByUsername ++ u.username) = none ∧
      cacheGet (Cached.DeleteUser st uid).1.cache
        (CacheKeyBalance ++ uid) = none) ∧
    (∀ (st : Cached.UCState) (uid username email : String) (u : User),
      findUser st.repo.users uid = some u →
      cacheGet st.cache (CacheKeyUserByID ++ uid) = none →
      email ≠ u.email → username ≠ u.username →
      cacheGet st.cache (CacheKeyUserByEmail ++ email) = none →
      findUserByEmail st.repo.users email = none →
      cacheGet st.cache (CacheKeyUserByUsername ++ username) = none →
      findUserByUsername st.repo.users username = none →
      (Cached.UpdateUserProfile st uid username email).2 =
        .ok { u with username := username, email := email } ∧
      findUser (Cached.UpdateUserProfile st uid username email).1.repo.users
        uid = some { u with username := username, email := email } ∧
      cacheGet (Cached.UpdateUserProfile st uid username email).1.cache
        (CacheKeyUserByID ++ uid) =
        some (.vUser { u with username := username, email := email }) ∧
      cacheGet (Cached.UpdateUserProfile st uid username email).1.cache
        (CacheKeyUserByEmail ++ email) =
        some (.vUser { u with username := username, email := email }) ∧
      cacheGet (Cached.UpdateUserProfile st uid username email).1.cache
        (CacheKeyUserByUsername ++ username) =
        some (.vUser { u with username := username, email := email }) ∧
      cacheGet (Cached.UpdateUserProfile st uid username email).1.cache
        (CacheKeyUserByEmail ++ u.email) = none ∧
      cacheGet (Cached.UpdateUserProfile st uid username email).1.cache
        (CacheKeyUserByUsername ++ u.username) = none) ∧
    (∀ (st : Cached.UCState) (tokens : List PasswordResetToken)
      (hash : String → String) (token newPassword : String)
      (t : PasswordResetToken) (u : User),
      findResetToken tokens token = some t → t.expired = false →
      cacheGet st.cache (CacheKeyUserByEmail ++ t.email) = none →
      findUserByEmail st.repo.users t.email = some u →
      findUser st.repo.users u.id = some u →
      (Cached.ResetPassword st tokens hash token newPassword).2.2 = none ∧
      (Cached.ResetPassword st tokens hash token newPassword).2.1 =
        deleteResetToken tokens token ∧
      findUser
        (Cached.ResetPassword st tokens hash token newPassword).1.repo.users
        u.id = some { u with password := hash newPassword } ∧
      cacheGet (Cached.ResetPassword st tokens hash token newPassword).1.cache
        (CacheKeyUserByID ++ u.id) = none ∧
      cacheGet (Cached.ResetPassword st tokens hash token newPassword).1.cache
        (CacheKeyUserByEmail ++ u.email) = none ∧
      cacheGet (Cached.ResetPassword st tokens hash token newPassword).1.cache
        (CacheKeyUserByUsername ++ u.username) = none ∧
      cacheGet (Cached.ResetPassword st tokens hash token newPassword).1.cache
        (CacheKeyBalance ++ u.id) = none) :=
  ⟨updateBalance_cache_spec, transferBalance_cache_spec, deleteUser_cache_spec,
    updateUserProfile_cache_spec, resetPassword_cache_spec⟩

/-- Witness for the amended C5, one representative conjunct per write
operation, at concrete states. -/
theorem C5_amended_write_invalidation_witness :
    (Cached.GetBalance
      (Cached.UpdateBalance ⟨demoState, staleCache⟩ "A" 50).1 "A").2 =
      .ok (demoA.balance + 50) ∧
    cacheGet (Cached.TransferBalance ⟨demoState, ⟨[]⟩⟩ "A" "B" 30).1.cache
      (CacheKeyUserByID ++ "A") = none ∧
    cacheGet (Cached.DeleteUser ⟨demoState, ⟨[]⟩⟩ "A").1.cache
      (CacheKeyUserByUsername ++ demoA.username) = none ∧
    cacheGet (Cached.UpdateUserProfile ⟨demoState, ⟨[]⟩⟩ "A" "carol"
        "carol@example.com").1.cache (CacheKeyUserByID ++ "A") =
      some (.vUser { demoA with
        username := "carol", email := "carol@example.com" }) ∧
    cacheGet (Cached.ResetPassword ⟨demoState, ⟨[]⟩⟩ demoTokens
        (fun s => s) "tok1" "npw").1.cache
      (CacheKeyUserByEmail ++ demoA.email) = none := by
  obtain ⟨h1, h2, h3, h4, h5⟩ := C5_amended_write_invalidation
  refine ⟨(h1 ⟨demoState, staleCache⟩ "A" 50 demoA rfl rfl).2.2.2.2,
    (h2 ⟨demoState, ⟨[]⟩⟩ "A" "B" 30 demoA demoB rfl rfl (by decide) rfl
      (by norm_num [demoA]) rfl rfl).2.2.2.1,
    (h3 ⟨demoState, ⟨[]⟩⟩ "A" demoA rfl rfl).2.2.2.2.1,
    (h4 ⟨demoState, ⟨[]⟩⟩ "A" "carol" "carol@example.com" demoA rfl rfl
      (by decide) (by decide) rfl rfl rfl rfl).2.2.1,
    (h5 ⟨demoState, ⟨[]⟩⟩ demoTokens (fun s => s) "tok1" "npw"
      ⟨"tok1", "alice@example.com", false⟩ demoA rfl rfl rfl rfl
      rfl).2.2.2.2.1⟩

end CS2
